import Mathlib

/-!
Verification of the mood-rotation selector and the draggable-diagram model
of this repository, as a shallow embedding in Lean 4.

Selector source: `getRandomMoodImporter` together with the module-level
catalog `allMoodImporters` and the module-level flag `isFirstCall`.
Diagram source: the `Mood` component (`buildAdaptivePath`, `centerOf`,
`handleMove`, `handleUp`, the `onPointerDown` handler, `initialNodes`).

Modelling conventions:
* JS array indexing `a[i]` (which yields `undefined` out of range) becomes
  `List.get? i : Option`; the value `undefined` is `none`.
* `Math.random()` (a float in `[0, 1)`) becomes an abstract stream
  `rand : Nat → ℚ` with the hypothesis `0 ≤ rand i < 1`;
  `Math.floor (r * n)` becomes `⌊r * n⌋₊`.
* The unbounded `do … while` rejection loop becomes a fuel-indexed
  recursion returning `Option`; `none` on fuel exhaustion.
* The module-level mutable flag `isFirstCall` becomes an explicit
  `SelectorState` threaded through the call.
* JS floats in the geometry become `ℚ`; the single transcendental call
  `Math.hypot` is abstracted as a parameter `hyp : ℚ → ℚ → ℚ`.
-/

/-- The five dynamically imported mood modules listed in the catalog.
Each arrow function `() => import("./X")` is a distinct closure; we
identify each closure by the module it imports. -/
inductive MoodModule where
  | july17 : MoodModule
  | july18 : MoodModule
  | july20 : MoodModule
  | july25 : MoodModule
  | augest8 : MoodModule
deriving DecidableEq, Repr

/-- The catalog `allMoodImporters`: an ordered, fixed list of importer
closures, one per mood module. -/
def allMoodImporters : List MoodModule :=
  [MoodModule.july17, MoodModule.july18, MoodModule.july20,
   MoodModule.july25, MoodModule.augest8]

/-- The process-wide selector state: the module-level `isFirstCall` flag
(initialized `true` at process start). -/
structure SelectorState where
  isFirstCall : Bool
deriving DecidableEq, Repr

/-- The `do { newImporter = allMoodImporters[Math.floor(Math.random() *
allMoodImporters.length)] } while (newImporter === current)` loop of
`getRandomMoodImporter`, with an explicit stream of random draws and
fuel bounding the number of iterations (`none` = fuel ran out). -/
def drawLoop (catalog : List α) (current : Option α) [DecidableEq α]
    (rand : Nat → ℚ) : Nat → Option α
  | 0 => none
  | fuel + 1 =>
    let newImporter := catalog.get? ⌊rand 0 * (catalog.length : ℚ)⌋₊
    if newImporter = current then
      drawLoop catalog current (fun i => rand (i + 1)) fuel
    else
      newImporter

/-- `getRandomMoodImporter`, parameterised by the catalog it closes over
(the source reads the module-level `allMoodImporters`) and by the
selector state. Returns the selected importer (`none` models
`undefined`) together with the state after the call. -/
def getRandomMoodImporter (catalog : List α) (current : Option α)
    [DecidableEq α] (s : SelectorState) (rand : Nat → ℚ) (fuel : Nat) :
    Option α × SelectorState :=
  if s.isFirstCall then
    (catalog.get? (catalog.length - 1), ⟨false⟩)
  else if catalog.length ≤ 1 then
    (catalog.get? 0, s)
  else
    (drawLoop catalog current rand fuel, s)

/-- Every draw of the loop indexes inside the catalog when the random
stream stays in `[0, 1)` and the catalog is nonempty. -/
theorem floor_draw_lt (len : Nat) (hlen : 0 < len) (r : ℚ)
    (h0 : 0 ≤ r) (h1 : r < 1) : ⌊r * (len : ℚ)⌋₊ < len := by
  have hr : r * (len : ℚ) < len := by
    have hl : (0 : ℚ) < len := by exact_mod_cast hlen
    calc r * (len : ℚ) < 1 * len := by
          exact mul_lt_mul_of_pos_right h1 hl
      _ = len := one_mul _
  have hnn : 0 ≤ r * (len : ℚ) := mul_nonneg h0 (by positivity)
  exact (Nat.floor_lt hnn).mpr hr

/-- Partial correctness and termination of the rejection loop: if some
draw within the fuel bound hits an element different from `current`,
the loop returns a catalog element different from `current`. -/
theorem drawLoop_sound [DecidableEq α] (catalog : List α)
    (current : Option α) :
    ∀ (fuel : Nat) (rand : Nat → ℚ),
    (∀ i, 0 ≤ rand i ∧ rand i < 1) →
    0 < catalog.length →
    (∃ i, i < fuel ∧
      catalog.get? ⌊rand i * (catalog.length : ℚ)⌋₊ ≠ current) →
    ∃ v, drawLoop catalog current rand fuel = some v ∧
      v ∈ catalog ∧ some v ≠ current := by
  intro fuel
  induction fuel with
  | zero =>
    intro rand _ _ hex
    obtain ⟨i, hi, _⟩ := hex
    exact absurd hi (Nat.not_lt_zero i)
  | succ n ih =>
    intro rand hrand hpos hex
    have hidx : ⌊rand 0 * (catalog.length : ℚ)⌋₊ < catalog.length :=
      floor_draw_lt _ hpos _ (hrand 0).1 (hrand 0).2
    have hw := List.get?_eq_get hidx
    by_cases hcur : catalog.get? ⌊rand 0 * (catalog.length : ℚ)⌋₊ = current
    · have hcur2 : catalog[⌊rand 0 * (catalog.length : ℚ)⌋₊]? = current := by
        simpa using hcur
      have hstep : drawLoop catalog current rand (n + 1) =
        drawLoop catalog current (fun i => rand (i + 1)) n := by
        simp [drawLoop, hcur2]
      rw [hstep]
      apply ih (fun i => rand (i + 1)) (fun i => hrand (i + 1)) hpos
      obtain ⟨i, hi, hne⟩ := hex
      match i, hi with
      | 0, _ => exact absurd hcur hne
      | j + 1, hj =>
        exact ⟨j, Nat.lt_of_succ_lt_succ hj, hne⟩
    · refine ⟨catalog.get ⟨_, hidx⟩, ?_, List.get_mem _ _ _, ?_⟩
      · simp only [drawLoop, if_neg hcur]
        exact hw
      · rw [← hw]; exact hcur

/-- Claim C1: for every catalog of length ≥ 2 and every non-first call
(first-call flag already cleared), `getRandomMoodImporter` returns a
catalog element different from `current` — provided the random stream
stays in `[0, 1)` and, within the fuel bound, some draw hits an element
different from `current` (the rejection loop terminates with
probability 1; the fuel bound makes that event explicit). -/
theorem selectNext_ne_current [DecidableEq α] (catalog : List α)
    (current : α) (s : SelectorState) (rand : Nat → ℚ) (fuel : Nat)
    (hfirst : s.isFirstCall = false)
    (hlen : 2 ≤ catalog.length)
    (hrand : ∀ i, 0 ≤ rand i ∧ rand i < 1)
    (hhit : ∃ i, i < fuel ∧
      catalog.get? ⌊rand i * (catalog.length : ℚ)⌋₊ ≠ some current) :
    ∃ v, (getRandomMoodImporter catalog (some current) s rand fuel).1
      = some v ∧ v ∈ catalog ∧ v ≠ current := by
  have hnotone : ¬ catalog.length ≤ 1 := by omega
  have hpos : 0 < catalog.length := by omega
  obtain ⟨v, hv, hmem, hne⟩ :=
    drawLoop_sound catalog (some current) fuel rand hrand hpos hhit
  refine ⟨v, ?_, hmem, ?_⟩
  · simp only [getRandomMoodImporter, hfirst, Bool.false_eq_true,
      if_false, if_neg hnotone]
    exact hv
  · intro hvc
    exact hne (by rw [hvc])

/-- Witness for C1 on the repository's own catalog: flag cleared,
constant random stream drawing index 0 (`july17`), current =
`augest8`. -/
theorem selectNext_ne_current_witness :
    ∃ v, (getRandomMoodImporter allMoodImporters
        (some MoodModule.augest8) ⟨false⟩ (fun _ => 0) 1).1 = some v ∧
      v ∈ allMoodImporters ∧ v ≠ MoodModule.augest8 :=
  selectNext_ne_current allMoodImporters MoodModule.augest8 ⟨false⟩
    (fun _ => 0) 1 rfl (by decide) (fun i => by norm_num)
    ⟨0, by decide, by simp [allMoodImporters]⟩

/-- Claim C2: on the first invocation (flag still set) the selector
returns the last catalog element, whatever `current` was, and the flag
comes out `false`; moreover after any call at all the flag is `false`,
so no later invocation can take the first-call branch again. -/
theorem selectNext_first_call [DecidableEq α] (catalog : List α)
    (current : Option α) (s : SelectorState) (rand : Nat → ℚ)
    (fuel : Nat) (hfirst : s.isFirstCall = true)
    (hlen : 2 ≤ catalog.length) :
    (getRandomMoodImporter catalog current s rand fuel).1
        = catalog.getLast? ∧
    (∃ v, catalog.getLast? = some v) ∧
    (getRandomMoodImporter catalog current s rand fuel).2.isFirstCall
        = false ∧
    (∀ (catalog2 : List α) (current2 : Option α) (s2 : SelectorState)
        (rand2 : Nat → ℚ) (fuel2 : Nat),
      (getRandomMoodImporter catalog2 current2 s2 rand2
          fuel2).2.isFirstCall = false) := by
  have hne : catalog ≠ [] := by
    intro h; rw [h] at hlen; simp at hlen
  refine ⟨?_, ?_, ?_, ?_⟩
  · simp only [getRandomMoodImporter, hfirst, if_true]
    rw [List.get?_eq_getElem?, List.getLast?_eq_getElem?]
  · rcases List.exists_mem_of_ne_nil catalog hne with ⟨a, _⟩
    rcases h : catalog.getLast? with _ | v
    · exact absurd (List.getLast?_eq_none_iff.mp h) hne
    · exact ⟨v, rfl⟩
  · simp [getRandomMoodImporter, hfirst]
  · intro catalog2 current2 s2 rand2 fuel2
    rcases hs : s2.isFirstCall with _ | _
    · by_cases h1 : catalog2.length ≤ 1 <;>
        simp [getRandomMoodImporter, hs, h1]
    · simp [getRandomMoodImporter, hs]

/-- Witness for C2: first call on the repository catalog with
`current = july18` returns the last entry `augest8` and clears the
flag. -/
theorem selectNext_first_call_witness :
    (getRandomMoodImporter allMoodImporters (some MoodModule.july18)
        ⟨true⟩ (fun _ => 0) 1).1 = allMoodImporters.getLast? ∧
    (∃ v, allMoodImporters.getLast? = some v) ∧
    (getRandomMoodImporter allMoodImporters (some MoodModule.july18)
        ⟨true⟩ (fun _ => 0) 1).2.isFirstCall = false ∧
    (∀ (catalog2 : List MoodModule) (current2 : Option MoodModule)
        (s2 : SelectorState) (rand2 : Nat → ℚ) (fuel2 : Nat),
      (getRandomMoodImporter catalog2 current2 s2 rand2
          fuel2).2.isFirstCall = false) :=
  selectNext_first_call allMoodImporters (some MoodModule.july18)
    ⟨true⟩ (fun _ => 0) 1 rfl (by decide)

/-- Claim C9: on a one-element catalog every call — first or not, with
any `current` — returns that single element (the first-call branch
returns the last = only element; the other branch hits the
`length <= 1` early return of element 0). -/
theorem selectNext_singleton [DecidableEq α] (a : α)
    (current : Option α) (s : SelectorState) (rand : Nat → ℚ)
    (fuel : Nat) :
    (getRandomMoodImporter [a] current s rand fuel).1 = some a := by
  rcases hs : s.isFirstCall with _ | _ <;>
    simp [getRandomMoodImporter, hs]

/-- Counterexample to claim C5 as stated: on an empty catalog the
selector does not fail fast — it returns normally. Concretely, the
first call on the empty catalog returns `none` (the model of the JS
value `undefined`, from the out-of-range access
`allMoodImporters[-1]`) and even consumes the first-call flag; the
non-first call returns `none` through the `length <= 1` early return.
No exception is thrown and nothing prevents startup. -/
theorem selectNext_empty_returns :
    (getRandomMoodImporter ([] : List MoodModule) none ⟨true⟩
        (fun _ => 0) 1) = (none, ⟨false⟩) ∧
    (getRandomMoodImporter ([] : List MoodModule) none ⟨false⟩
        (fun _ => 0) 1) = (none, ⟨false⟩) := by
  constructor <;> rfl

/-- Claim C5 amended: the repository's catalog is statically non-empty
(five entries), so the empty case never arises at runtime; the code
performs no emptiness validation and has no failure path — on an empty
catalog `getRandomMoodImporter` returns normally with `none`
(`undefined`) instead of failing fast. -/
theorem selectNext_empty_amended :
    allMoodImporters.length = 5 ∧ allMoodImporters ≠ [] ∧
    (∀ (current : Option MoodModule) (s : SelectorState)
        (rand : Nat → ℚ) (fuel : Nat),
      (getRandomMoodImporter ([] : List MoodModule) current s rand
          fuel).1 = none) := by
  refine ⟨rfl, by decide, ?_⟩
  intro current s rand fuel
  rcases hs : s.isFirstCall with _ | _ <;>
    simp [getRandomMoodImporter, hs]

/-- Node identifiers of the flow diagram (the `NodeId` union type). -/
inductive NodeId where
  | appRender : NodeId
  | macBypass : NodeId
  | afxdp : NodeId
  | decoder : NodeId
  | displayCtrl : NodeId
  | uiOverlay : NodeId
  | composition : NodeId
  | panel : NodeId
deriving DecidableEq, Repr

/-- The closed icon enumeration of `FlowNode.icon`. -/
inductive IconKind where
  | click : IconKind
  | swap : IconKind
  | blocks : IconKind
  | xdp : IconKind
  | scan : IconKind
  | monitor : IconKind
  | layers : IconKind
  | stack : IconKind
deriving DecidableEq, Repr

/-- The optional shape tag of `FlowNode.shape`. -/
inductive ShapeKind where
  | circle : ShapeKind
  | square : ShapeKind
deriving DecidableEq, Repr

/-- The optional neon tag of `FlowNode.neon`. -/
inductive NeonKind where
  | magenta : NeonKind
  | cyan : NeonKind
  | noGlow : NeonKind
deriving DecidableEq, Repr

/-- A diagram node (`FlowNode`): identity, text, a rectangle
`(x, y, w, h)` in virtual-canvas units, and visual tags. -/
structure FlowNode where
  id : NodeId
  title : String
  label : String
  subtitle : Option String
  x : ℚ
  y : ℚ
  w : ℚ
  h : ℚ
  icon : IconKind
  shape : Option ShapeKind
  neon : Option NeonKind
  iconScale : Option ℚ
deriving DecidableEq, Repr

/-- A directed link between two nodes (`FlowLink`). -/
structure FlowLink where
  fromId : NodeId
  toId : NodeId
  dashed : Option Bool
  color : Option String
  excluded : Option Bool
deriving DecidableEq, Repr

/-- A point in virtual-canvas coordinates. -/
structure Point where
  x : ℚ
  y : ℚ
deriving DecidableEq, Repr

/-- The canonical initial layout `initialNodes` of the `Mood`
component. -/
def initialNodes : List FlowNode :=
  [{ id := NodeId.appRender, title := "App Render Trigger",
     label := "App Trigger", subtitle := some "sender app",
     x := 10, y := 100, w := 156, h := 176, icon := IconKind.click,
     shape := some ShapeKind.square, neon := some NeonKind.magenta,
     iconScale := some (6 / 5) },
   { id := NodeId.macBypass, title := "Wi-Fi MAC Bypass",
     label := "MAC Bypass", subtitle := some "MAC path",
     x := 20, y := 350, w := 136, h := 156, icon := IconKind.swap,
     shape := none, neon := none, iconScale := none },
   { id := NodeId.afxdp, title := "AF_XDP Zero-Copy",
     label := "AF_XDP", subtitle := some "user-space",
     x := 220, y := 350, w := 136, h := 156, icon := IconKind.xdp,
     shape := none, neon := none, iconScale := none },
   { id := NodeId.decoder, title := "Line-based Decoder",
     label := "Line Decoder", subtitle := some "decode",
     x := 420, y := 350, w := 136, h := 156, icon := IconKind.scan,
     shape := none, neon := none, iconScale := none },
   { id := NodeId.displayCtrl, title := "Display Controller",
     label := "Display Ctrl", subtitle := some "KMS plane",
     x := 620, y := 350, w := 136, h := 156, icon := IconKind.blocks,
     shape := none, neon := none, iconScale := none },
   { id := NodeId.uiOverlay, title := "UI Overlay (GPU)",
     label := "Independent UI", subtitle := some "UI plane (GPU)",
     x := 720, y := 550, w := 136, h := 156, icon := IconKind.layers,
     shape := none, neon := none, iconScale := none },
   { id := NodeId.composition, title := "Final Composition",
     label := "Composition", subtitle := some "composer",
     x := 820, y := 350, w := 136, h := 156, icon := IconKind.stack,
     shape := none, neon := none, iconScale := none },
   { id := NodeId.panel, title := "Display Panel",
     label := "Panel", subtitle := some "panel",
     x := 810, y := 100, w := 156, h := 176, icon := IconKind.monitor,
     shape := some ShapeKind.square, neon := some NeonKind.cyan,
     iconScale := some (6 / 5) }]

/-- The fixed link list `links` of the `Mood` component. -/
def links : List FlowLink :=
  [{ fromId := NodeId.appRender, toId := NodeId.macBypass,
     dashed := none, color := none, excluded := some true },
   { fromId := NodeId.macBypass, toId := NodeId.afxdp,
     dashed := none, color := none, excluded := none },
   { fromId := NodeId.afxdp, toId := NodeId.decoder,
     dashed := none, color := none, excluded := none },
   { fromId := NodeId.decoder, toId := NodeId.displayCtrl,
     dashed := none, color := none, excluded := none },
   { fromId := NodeId.displayCtrl, toId := NodeId.composition,
     dashed := none, color := none, excluded := none },
   { fromId := NodeId.uiOverlay, toId := NodeId.composition,
     dashed := none, color := none, excluded := some true },
   { fromId := NodeId.composition, toId := NodeId.panel,
     dashed := none, color := none, excluded := none }]

/-- `centerOf`: the center point of a node's rectangle. -/
def centerOf (n : FlowNode) : ℚ × ℚ :=
  (n.x + n.w / 2, n.y + n.h / 2)

/-- The data of the cubic Bezier path string
`M sx sy C c1x c1y, c2x c2y, tx ty` returned by `buildAdaptivePath`. -/
structure PathDesc where
  sx : ℚ
  sy : ℚ
  c1x : ℚ
  c1y : ℚ
  c2x : ℚ
  c2y : ℚ
  tx : ℚ
  ty : ℚ
deriving DecidableEq, Repr

/-- `buildAdaptivePath` (the spec's `resolvePath`): transcription of the
source, over exact rationals, with `Math.hypot` as the abstract
parameter `hyp`. The mutable `let` reassignments of the source become
branch expressions with the same case structure. -/
def buildAdaptivePath (hyp : ℚ → ℚ → ℚ) (fr tgt : FlowNode) : PathDesc :=
  let fx := (centerOf fr).1
  let fy := (centerOf fr).2
  let tx := (centerOf tgt).1
  let ty := (centerOf tgt).2
  let dx := tx - fx
  let dy := ty - fy
  let horizontal : Bool := decide (|dx| ≥ |dy|)
  let sx := if horizontal then (if 0 ≤ dx then fr.x + fr.w else fr.x) else fx
  let sy := if horizontal then fy else (if 0 ≤ dy then fr.y + fr.h else fr.y)
  let sNx : ℚ := if horizontal then (if 0 ≤ dx then 1 else -1) else 0
  let sNy : ℚ := if horizontal then 0 else (if 0 ≤ dy then 1 else -1)
  let txa := if horizontal then (if 0 ≤ dx then tgt.x else tgt.x + tgt.w) else tx
  let tya := if horizontal then ty else (if 0 ≤ dy then tgt.y else tgt.y + tgt.h)
  let tNx : ℚ := if horizontal then (if 0 ≤ dx then -1 else 1) else 0
  let tNy : ℚ := if horizontal then 0 else (if 0 ≤ dy then -1 else 1)
  let dist := hyp (txa - sx) (tya - sy)
  let k := min 120 (max 40 (dist / 3))
  { sx := sx, sy := sy,
    c1x := sx + sNx * k, c1y := sy + sNy * k,
    c2x := txa + tNx * k, c2y := tya + tNy * k,
    tx := txa, ty := tya }

/-- The spec's clamp: `clamp(x, lo, hi)` bounds `x` into `[lo, hi]`. -/
def clamp (x lo hi : ℚ) : ℚ := max lo (min hi x)

/-- Spec-side path resolution, written from the spec's words: centers
and deltas, horizontal iff `|dx| ≥ |dy|`, exit/entry at the midpoints
of the facing sides, `k = clamp(distance(exit, entry)/3, 40, 120)`,
control points offset along the outward normals. Used only to compare
against `buildAdaptivePath`. -/
def specResolvePath (hyp : ℚ → ℚ → ℚ) (a b : FlowNode) : PathDesc :=
  let dx := (b.x + b.w / 2) - (a.x + a.w / 2)
  let dy := (b.y + b.h / 2) - (a.y + a.h / 2)
  if |dx| ≥ |dy| then
    if 0 ≤ dx then
      let ex := a.x + a.w
      let ey := a.y + a.h / 2
      let nx := b.x
      let ny := b.y + b.h / 2
      let k := clamp (hyp (nx - ex) (ny - ey) / 3) 40 120
      { sx := ex, sy := ey, c1x := ex + k, c1y := ey,
        c2x := nx - k, c2y := ny, tx := nx, ty := ny }
    else
      let ex := a.x
      let ey := a.y + a.h / 2
      let nx := b.x + b.w
      let ny := b.y + b.h / 2
      let k := clamp (hyp (nx - ex) (ny - ey) / 3) 40 120
      { sx := ex, sy := ey, c1x := ex - k, c1y := ey,
        c2x := nx + k, c2y := ny, tx := nx, ty := ny }
  else
    if 0 ≤ dy then
      let ex := a.x + a.w / 2
      let ey := a.y + a.h
      let nx := b.x + b.w / 2
      let ny := b.y
      let k := clamp (hyp (nx - ex) (ny - ey) / 3) 40 120
      { sx := ex, sy := ey, c1x := ex, c1y := ey + k,
        c2x := nx, c2y := ny - k, tx := nx, ty := ny }
    else
      let ex := a.x + a.w / 2
      let ey := a.y
      let nx := b.x + b.w / 2
      let ny := b.y + b.h
      let k := clamp (hyp (nx - ex) (ny - ey) / 3) 40 120
      { sx := ex, sy := ey, c1x := ex, c1y := ey - k,
        c2x := nx, c2y := ny + k, tx := nx, ty := ny }

/-- The ephemeral drag session `draggingRef.current`: grabbed node id
(if any) and the pointer-to-origin offset recorded at grab time. -/
structure DragState where
  id : Option NodeId
  dx : ℚ
  dy : ℚ
deriving DecidableEq, Repr

/-- The `onPointerDown` handler of a node badge (the spec's
`beginDrag`): records the grabbed id and the offset between the
pointer and the node origin (x after undoing the centering
translation `offsetX`). -/
def onPointerDown (n : FlowNode) (offsetX : ℚ) (start : Point) :
    DragState :=
  { id := some n.id, dx := start.x - (n.x + offsetX),
    dy := start.y - n.y }

/-- The `handleMove` pointer-move handler (the spec's `updateDrag`):
with no active session it returns the nodes unchanged; otherwise it
maps over the nodes, rewriting the position of those whose id matches
the dragged id and keeping every other node as is. -/
def handleMove (offsetX : ℚ) (drag : DragState) (pt : Point)
    (prev : List FlowNode) : List FlowNode :=
  match drag.id with
  | none => prev
  | some did =>
      prev.map (fun n =>
        if n.id = did then
          { n with x := (pt.x - offsetX) - drag.dx, y := pt.y - drag.dy }
        else n)

/-- The `handleUp` pointer-up handler (the spec's `endDrag`): resets
the drag session to `{ id: null, dx: 0, dy: 0 }` unconditionally. -/
def handleUp (_ : DragState) : DragState :=
  { id := none, dx := 0, dy := 0 }

/-- Node A of the spec's worked example: rectangle (0, 100, 156, 176). -/
def exampleNodeA : FlowNode :=
  { id := NodeId.appRender, title := "A", label := "A",
    subtitle := none, x := 0, y := 100, w := 156, h := 176,
    icon := IconKind.click, shape := some ShapeKind.square,
    neon := some NeonKind.magenta, iconScale := none }

/-- Node B of the spec's worked example: rectangle (810, 100, 156, 176). -/
def exampleNodeB : FlowNode :=
  { id := NodeId.panel, title := "B", label := "B",
    subtitle := none, x := 810, y := 100, w := 156, h := 176,
    icon := IconKind.monitor, shape := some ShapeKind.square,
    neon := some NeonKind.cyan, iconScale := none }

/-- The source's `Math.min(120, Math.max(40, d))` is the spec's
`clamp(d, 40, 120)`. -/
theorem min_max_clamp (x : ℚ) : min 120 (max 40 x) = clamp x 40 120 := by
  simp only [clamp, min_def, max_def]
  split_ifs <;> linarith

/-- The clamped control magnitude always lands in `[40, 120]`. -/
theorem clamp_mem (x : ℚ) : 40 ≤ clamp x 40 120 ∧ clamp x 40 120 ≤ 120 := by
  constructor
  · exact le_max_left _ _
  · exact max_le (by norm_num) (min_le_left _ _)

/-- The transcription of the source path builder agrees with the
algorithm as worded in the spec, for every pair of rectangles and every
interpretation of `Math.hypot`. -/
theorem buildAdaptivePath_eq_spec (hyp : ℚ → ℚ → ℚ) (fr tgt : FlowNode) :
    buildAdaptivePath hyp fr tgt = specResolvePath hyp fr tgt := by
  simp only [buildAdaptivePath, specResolvePath, centerOf,
    decide_eq_true_eq]
  split_ifs <;> rw [min_max_clamp] <;> congr 1 <;> ring

/-- Claim C3: the path builder classifies horizontal vs vertical by
`|dx| ≥ |dy|`, exits and enters at the midpoints of the facing sides,
and offsets the control points by `k = clamp(dist/3, 40, 120)` along
the outward normals — stated as agreement with the spec-worded
algorithm — and on the worked example (A at (0,100,156,176), B at
(810,100,156,176), dy = 0) it exits A's right edge and enters B's left
edge at the side midpoints. -/
theorem resolvePath_matches_spec (hyp : ℚ → ℚ → ℚ) :
    (∀ fr tgt : FlowNode,
      buildAdaptivePath hyp fr tgt = specResolvePath hyp fr tgt) ∧
    (buildAdaptivePath hyp exampleNodeA exampleNodeB).sx
        = exampleNodeA.x + exampleNodeA.w ∧
    (buildAdaptivePath hyp exampleNodeA exampleNodeB).sy
        = exampleNodeA.y + exampleNodeA.h / 2 ∧
    (buildAdaptivePath hyp exampleNodeA exampleNodeB).tx
        = exampleNodeB.x ∧
    (buildAdaptivePath hyp exampleNodeA exampleNodeB).ty
        = exampleNodeB.y + exampleNodeB.h / 2 := by
  refine ⟨buildAdaptivePath_eq_spec hyp, ?_, ?_, ?_, ?_⟩ <;>
    norm_num [buildAdaptivePath, centerOf, exampleNodeA, exampleNodeB]

/-- Claim C8: `buildAdaptivePath` is a pure, deterministic function of
the two endpoint rectangles: it reads nothing but the `x`, `y`, `w`,
`h` fields of its two arguments (and the fixed `hyp` interpretation),
so any two calls on nodes with identical rectangles — whatever their
other fields — give identical path data. -/
theorem resolvePath_pure (hyp : ℚ → ℚ → ℚ) (a a2 b b2 : FlowNode)
    (hax : a.x = a2.x) (hay : a.y = a2.y) (haw : a.w = a2.w)
    (hah : a.h = a2.h) (hbx : b.x = b2.x) (hby : b.y = b2.y)
    (hbw : b.w = b2.w) (hbh : b.h = b2.h) :
    buildAdaptivePath hyp a b = buildAdaptivePath hyp a2 b2 := by
  simp only [buildAdaptivePath, centerOf, hax, hay, haw, hah,
    hbx, hby, hbw, hbh]

/-- Witness for C8: the example nodes against copies that differ in
every non-geometric field produce the same path. -/
theorem resolvePath_pure_witness :
    buildAdaptivePath (fun u v => u + v) exampleNodeA exampleNodeB =
      buildAdaptivePath (fun u v => u + v)
        { id := NodeId.decoder, title := "other", label := "other",
          subtitle := some "other", x := 0, y := 100, w := 156,
          h := 176, icon := IconKind.scan, shape := none, neon := none,
          iconScale := some 2 }
        { id := NodeId.uiOverlay, title := "other2", label := "other2",
          subtitle := some "other2", x := 810, y := 100, w := 156,
          h := 176, icon := IconKind.layers, shape := none,
          neon := none, iconScale := some 3 } :=
  resolvePath_pure (fun u v => u + v) _ _ _ _ rfl rfl rfl rfl rfl rfl
    rfl rfl

/-- Claim C6: path resolution is total over exact arithmetic and safe
on degenerate geometry: for any rectangles (including coincident ones)
and any `Math.hypot` interpretation, both control-point offsets have
length exactly `k` for some `k` in `[40, 120]` (so the clamp keeps the
scale bounded whatever the distance is, zero included), and when the
two centers coincide the tie is classified as horizontal: the path
leaves A's right-side midpoint and enters B's left-side midpoint. -/
theorem resolvePath_degenerate_safe (hyp : ℚ → ℚ → ℚ)
    (fr tgt : FlowNode) :
    (∃ k, 40 ≤ k ∧ k ≤ 120 ∧
      ((buildAdaptivePath hyp fr tgt).c1x -
          (buildAdaptivePath hyp fr tgt).sx) ^ 2 +
        ((buildAdaptivePath hyp fr tgt).c1y -
          (buildAdaptivePath hyp fr tgt).sy) ^ 2 = k ^ 2 ∧
      ((buildAdaptivePath hyp fr tgt).c2x -
          (buildAdaptivePath hyp fr tgt).tx) ^ 2 +
        ((buildAdaptivePath hyp fr tgt).c2y -
          (buildAdaptivePath hyp fr tgt).ty) ^ 2 = k ^ 2) ∧
    (centerOf fr = centerOf tgt →
      (buildAdaptivePath hyp fr tgt).sx = fr.x + fr.w ∧
      (buildAdaptivePath hyp fr tgt).sy = fr.y + fr.h / 2 ∧
      (buildAdaptivePath hyp fr tgt).tx = tgt.x ∧
      (buildAdaptivePath hyp fr tgt).ty = tgt.y + tgt.h / 2) := by
  rw [buildAdaptivePath_eq_spec]
  constructor
  · simp only [specResolvePath]
    split_ifs <;>
      refine ⟨clamp (hyp _ _ / 3) 40 120, (clamp_mem _).1,
        (clamp_mem _).2, by ring, by ring⟩
  · intro hc
    have hx : fr.x + fr.w / 2 = tgt.x + tgt.w / 2 := by
      have := congrArg Prod.fst hc
      simpa [centerOf] using this
    have hy : fr.y + fr.h / 2 = tgt.y + tgt.h / 2 := by
      have := congrArg Prod.snd hc
      simpa [centerOf] using this
    have hdx : (tgt.x + tgt.w / 2) - (fr.x + fr.w / 2) = 0 := by
      linarith
    have hdy : (tgt.y + tgt.h / 2) - (fr.y + fr.h / 2) = 0 := by
      linarith
    simp only [specResolvePath, hdx, hdy]
    norm_num

/-- Witness for C6: coincident copies of the example node A — the
implication's hypothesis holds and the degenerate tie goes
horizontal, with the control offsets still in `[40, 120]`. -/
theorem resolvePath_degenerate_safe_witness :
    ((buildAdaptivePath (fun u v => u + v) exampleNodeA exampleNodeA).sx
        = exampleNodeA.x + exampleNodeA.w ∧
      (buildAdaptivePath (fun u v => u + v) exampleNodeA
          exampleNodeA).tx = exampleNodeA.x) ∧
    (∃ k, 40 ≤ k ∧ k ≤ 120 ∧
      ((buildAdaptivePath (fun u v => u + v) exampleNodeA
            exampleNodeA).c1x -
          (buildAdaptivePath (fun u v => u + v) exampleNodeA
            exampleNodeA).sx) ^ 2 +
        ((buildAdaptivePath (fun u v => u + v) exampleNodeA
            exampleNodeA).c1y -
          (buildAdaptivePath (fun u v => u + v) exampleNodeA
            exampleNodeA).sy) ^ 2 = k ^ 2 ∧
      ((buildAdaptivePath (fun u v => u + v) exampleNodeA
            exampleNodeA).c2x -
          (buildAdaptivePath (fun u v => u + v) exampleNodeA
            exampleNodeA).tx) ^ 2 +
        ((buildAdaptivePath (fun u v => u + v) exampleNodeA
            exampleNodeA).c2y -
          (buildAdaptivePath (fun u v => u + v) exampleNodeA
            exampleNodeA).ty) ^ 2 = k ^ 2) := by
  have h := resolvePath_degenerate_safe (fun u v => u + v)
    exampleNodeA exampleNodeA
  have hcent : centerOf exampleNodeA = centerOf exampleNodeA := rfl
  exact ⟨⟨(h.2 hcent).1, (h.2 hcent).2.2.1⟩, h.1⟩

/-- Claim C4: with an active drag session, a pointer move rewrites the
position of the dragged node only: the node list keeps its length (no
node added or removed), every entry whose id differs from the dragged
id is bit-identical before and after, and the entry with the dragged
id changes only its `x` and `y` fields (the record update keeps every
other field). -/
theorem updateDrag_only_dragged (offsetX : ℚ) (drag : DragState)
    (did : NodeId) (pt : Point) (nodes : List FlowNode)
    (hid : drag.id = some did) :
    (handleMove offsetX drag pt nodes).length = nodes.length ∧
    ∀ i n0, nodes.get? i = some n0 →
      (n0.id ≠ did → (handleMove offsetX drag pt nodes).get? i = some n0) ∧
      (n0.id = did → (handleMove offsetX drag pt nodes).get? i =
        some { n0 with x := (pt.x - offsetX) - drag.dx,
                       y := pt.y - drag.dy }) := by
  simp only [handleMove, hid]
  refine ⟨List.length_map _ _, ?_⟩
  intro i n0 h0
  simp only [List.get?_eq_getElem?] at h0 ⊢
  constructor
  · intro hne
    rw [List.getElem?_map, h0]
    simp [hne]
  · intro heq
    rw [List.getElem?_map, h0]
    simp [heq]

/-- Witness for C4: dragging the panel node of the canonical layout to
pointer (900, 200) with offset (3, 4) and centering 24. -/
theorem updateDrag_only_dragged_witness :
    (handleMove 24 ⟨some NodeId.panel, 3, 4⟩ ⟨900, 200⟩
        initialNodes).length = initialNodes.length ∧
    ∀ i n0, initialNodes.get? i = some n0 →
      (n0.id ≠ NodeId.panel →
        (handleMove 24 ⟨some NodeId.panel, 3, 4⟩ ⟨900, 200⟩
            initialNodes).get? i = some n0) ∧
      (n0.id = NodeId.panel →
        (handleMove 24 ⟨some NodeId.panel, 3, 4⟩ ⟨900, 200⟩
            initialNodes).get? i =
          some { n0 with x := (900 - 24) - 3, y := 200 - 4 }) :=
  updateDrag_only_dragged 24 ⟨some NodeId.panel, 3, 4⟩ NodeId.panel
    ⟨900, 200⟩ initialNodes rfl

/-- Claim C7: `handleUp` resets the session to the cleared state
unconditionally, is idempotent, and a pointer move processed after it
(with no new pointer-down) leaves every node exactly in place. -/
theorem endDrag_clears_and_updateDrag_noop (d d2 : DragState)
    (offsetX : ℚ) (pt : Point) (nodes : List FlowNode) :
    handleUp d = { id := none, dx := 0, dy := 0 } ∧
    handleUp (handleUp d) = handleUp d ∧
    handleMove offsetX (handleUp d2) pt nodes = nodes :=
  ⟨rfl, rfl, rfl⟩

/-- Members of a list with nodup ids that share an id are equal. -/
theorem eq_of_mem_of_id_eq {nodes : List FlowNode} {m n : FlowNode}
    (hnodup : (nodes.map FlowNode.id).Nodup) (hm : m ∈ nodes)
    (hn : n ∈ nodes) (hid : m.id = n.id) : m = n :=
  List.inj_on_of_nodup_map hnodup hm hn hid

/-- Claim C10: drag is a translation round-trip. Grabbing node `n` at
pointer `p` and moving to pointer `q` rewrites exactly the nodes with
`n`'s id to `n`'s grab-time position translated by `q - p`; with
unique ids, moving to the unchanged grab position `q = p` leaves the
node list exactly as it was. -/
theorem drag_round_trip (nodes : List FlowNode) (n : FlowNode)
    (offsetX : ℚ) (p q : Point) (hmem : n ∈ nodes)
    (hnodup : (nodes.map FlowNode.id).Nodup) :
    handleMove offsetX (onPointerDown n offsetX p) q nodes =
      nodes.map (fun m => if m.id = n.id then
        { m with x := n.x + (q.x - p.x), y := n.y + (q.y - p.y) }
      else m) ∧
    (q = p → handleMove offsetX (onPointerDown n offsetX p) q nodes
      = nodes) := by
  have hmain : handleMove offsetX (onPointerDown n offsetX p) q nodes =
      nodes.map (fun m => if m.id = n.id then
        { m with x := n.x + (q.x - p.x), y := n.y + (q.y - p.y) }
      else m) := by
    simp only [handleMove, onPointerDown]
    apply List.map_congr_left
    intro m _
    by_cases hidm : m.id = n.id
    · simp only [hidm, if_pos rfl]
      have hx : (q.x - offsetX) - (p.x - (n.x + offsetX)) =
          n.x + (q.x - p.x) := by ring
      have hy : q.y - (p.y - n.y) = n.y + (q.y - p.y) := by ring
      rw [hx, hy]
    · simp only [if_neg hidm]
  refine ⟨hmain, ?_⟩
  intro hqp
  rw [hmain, hqp]
  have hnone : ∀ m ∈ nodes, (if m.id = n.id then
      { m with x := n.x + (p.x - p.x), y := n.y + (p.y - p.y) }
    else m) = m := by
    intro m hm
    by_cases hidm : m.id = n.id
    · have hmn : m = n := eq_of_mem_of_id_eq hnodup hm hmem hidm
      subst hmn
      simp only [if_pos hidm]
      have hx : m.x + (p.x - p.x) = m.x := by ring
      have hy : m.y + (p.y - p.y) = m.y := by ring
      rw [hx, hy]
      simp
    · simp only [if_neg hidm]
  calc nodes.map _ = nodes.map id := List.map_congr_left hnone
    _ = nodes := List.map_id nodes

/-- Witness for C10: grabbing the `appRender` node of the canonical
layout at pointer (50, 150) and moving to (60, 170) translates it by
(10, 20); releasing the pointer at the grab position changes
nothing. -/
theorem drag_round_trip_witness :
    (handleMove 24 (onPointerDown (initialNodes.get ⟨0, by decide⟩) 24
        ⟨50, 150⟩) ⟨60, 170⟩ initialNodes =
      initialNodes.map (fun m =>
        if m.id = (initialNodes.get ⟨0, by decide⟩).id then
          { m with
            x := (initialNodes.get ⟨0, by decide⟩).x + (60 - 50),
            y := (initialNodes.get ⟨0, by decide⟩).y + (170 - 150) }
        else m)) ∧
    ((⟨60, 170⟩ : Point) = ⟨50, 150⟩ →
      handleMove 24 (onPointerDown (initialNodes.get ⟨0, by decide⟩) 24
        ⟨50, 150⟩) ⟨60, 170⟩ initialNodes = initialNodes) :=
  drag_round_trip initialNodes (initialNodes.get ⟨0, by decide⟩) 24
    ⟨50, 150⟩ ⟨60, 170⟩ (List.get_mem _ _ _) (by decide)
